import Mathlib

/-!
Shallow embedding of the webhook dispatch subsystem of app-dols-capital.

Dispatcher: src/project/src/services/WebhookService.ts (class WebhookService).
Change Monitor: src/unnamed/part_005 (hook useWebhookTrigger).

Modelling conventions:
* Timestamps (the values of Date.now) are natural numbers of milliseconds;
  the JavaScript subtractions are performed in Int, matching the semantics
  of number subtraction on these values.
* The in-memory maps (lastEventTimes, previousClientStates,
  previousProposalStates) are total functions into Option, where none
  models an absent key.
* The outcome of one HTTP POST is an oracle value per destination:
  ok2xx models a response with ok = true, non2xx a response with
  ok = false, networkError a rejected fetch promise; the two failure
  forms are both caught in the source and converted to false.
* Firestore reads are modelled by a ReadResult value: error models a
  rejected read promise, which the source catches.
-/

namespace DolsCapital

/-- Nested per-event flags for client events (WebhookConfig.events.clients). -/
structure ClientEventsConfig where
  created : Bool
  updated : Bool
  statusChanged : Bool
deriving DecidableEq

/-- Nested per-event flags for proposal events (WebhookConfig.events.proposals). -/
structure ProposalEventsConfig where
  created : Bool
  updated : Bool
  statusChanged : Bool
deriving DecidableEq

/-- Nested per-event flag for pipeline events (WebhookConfig.events.pipeline). -/
structure PipelineEventsConfig where
  statusChanged : Bool
deriving DecidableEq

/-- The events field of a WebhookConfig. -/
structure EventsConfig where
  clients : ClientEventsConfig
  proposals : ProposalEventsConfig
  pipeline : PipelineEventsConfig
deriving DecidableEq

/-- The throttle field of a WebhookConfig; interval is in seconds. -/
structure ThrottleConfig where
  enabled : Bool
  interval : Nat
deriving DecidableEq

/-- interface WebhookConfig of WebhookService.ts. -/
structure WebhookConfig where
  id : String
  name : String
  url : String
  enabled : Bool
  secret : String
  events : EventsConfig
  throttle : ThrottleConfig
deriving DecidableEq

/-- type EventType of WebhookService.ts: the seven event kinds. -/
inductive EventType
  | client_created
  | client_updated
  | client_status_changed
  | proposal_created
  | proposal_updated
  | proposal_status_changed
  | pipeline_status_changed
deriving DecidableEq

/-- The string value of an EventType literal, used in the throttle key. -/
def eventTypeString : EventType → String
  | .client_created => "client_created"
  | .client_updated => "client_updated"
  | .client_status_changed => "client_status_changed"
  | .proposal_created => "proposal_created"
  | .proposal_updated => "proposal_updated"
  | .proposal_status_changed => "proposal_status_changed"
  | .pipeline_status_changed => "pipeline_status_changed"

/-- The filter predicate of getEnabledWebhooksForEvent: the source first
rejects a config when !config.enabled || !config.url (a url is falsy
exactly when it is the empty string), then branches on the event type to
read the nested flag. -/
def webhookEligible (config : WebhookConfig) (eventType : EventType) : Bool :=
  if !config.enabled || config.url == "" then
    false
  else
    match eventType with
    | .client_created => config.events.clients.created
    | .client_updated => config.events.clients.updated
    | .client_status_changed => config.events.clients.statusChanged
    | .proposal_created => config.events.proposals.created
    | .proposal_updated => config.events.proposals.updated
    | .proposal_status_changed => config.events.proposals.statusChanged
    | .pipeline_status_changed => config.events.pipeline.statusChanged

/-- WebhookService.getEnabledWebhooksForEvent applied to an already
resolved configuration list. -/
def getEnabledWebhooksForEvent (configs : List WebhookConfig) (eventType : EventType) :
    List WebhookConfig :=
  configs.filter (fun config => webhookEligible config eventType)

/-- The composite throttle key config.id : eventType : entityId. -/
def eventKey (config : WebhookConfig) (eventType : EventType) (entityId : String) : String :=
  config.id ++ ":" ++ eventTypeString eventType ++ ":" ++ entityId

/-- The lastEventTimes map: throttle key to timestamp of last attempt. -/
def ThrottleState : Type := String → Option Nat

/-- Map update, modelling Map.set. -/
def mapSet {α : Type} (m : String → Option α) (k : String) (v : α) : String → Option α :=
  fun k2 => if k2 = k then some v else m k2

/-- WebhookService.shouldThrottle, returning the decision together with the
lastEventTimes map after the call (the source mutates this.lastEventTimes
in place). Map.get k or-zero is (state k).getD 0. -/
def shouldThrottle (now : Nat) (config : WebhookConfig) (eventType : EventType)
    (entityId : String) (lastEventTimes : ThrottleState) : Bool × ThrottleState :=
  if !config.throttle.enabled then
    (false, lastEventTimes)
  else
    let key := eventKey config eventType entityId
    let lastTime : Nat := (lastEventTimes key).getD 0
    if (now : Int) - (lastTime : Int) < (config.throttle.interval : Int) * 1000 then
      (true, lastEventTimes)
    else
      (false, mapSet lastEventTimes key now)

/-- Outcome of the fetch POST to one destination. -/
inductive HttpOutcome
  | ok2xx
  | non2xx
  | networkError
deriving DecidableEq

/-- WebhookService.sendToWebhook. Returns (result, madeHttpCall, state).
madeHttpCall records whether fetch was invoked; a non-ok response and a
network error are both caught and produce false, never an exception. -/
def sendToWebhook (outcome : WebhookConfig → HttpOutcome) (now : Nat)
    (config : WebhookConfig) (eventType : EventType) (entityId : String)
    (s : ThrottleState) : Bool × Bool × ThrottleState :=
  let throttleStep := shouldThrottle now config eventType entityId s
  if throttleStep.1 then
    (false, false, throttleStep.2)
  else
    match outcome config with
    | .ok2xx => (true, true, throttleStep.2)
    | .non2xx => (false, true, throttleStep.2)
    | .networkError => (false, true, throttleStep.2)

/-- The fan-out of send over the enabled webhooks. The throttle check and
map update inside each sendToWebhook run synchronously, in list order,
before any HTTP response is awaited, so the state is threaded
sequentially. Returns (per-destination results, destinations to which an
HTTP call was issued, final state). -/
def sendLoop (outcome : WebhookConfig → HttpOutcome) (now : Nat) (eventType : EventType)
    (entityId : String) :
    List WebhookConfig → ThrottleState → List Bool × List WebhookConfig × ThrottleState
  | [], s => ([], [], s)
  | config :: rest, s =>
    let step := sendToWebhook outcome now config eventType entityId s
    let tail := sendLoop outcome now eventType entityId rest step.2.2
    (step.1 :: tail.1,
     (if step.2.1 then config :: tail.2.1 else tail.2.1),
     tail.2.2)

/-- Result of one invocation of send: the boolean returned to the caller,
the destinations for which sendToWebhook was invoked, the destinations
that received an HTTP call, and the throttle map afterwards. -/
structure SendResult where
  delivered : Bool
  attempted : List WebhookConfig
  httpCalls : List WebhookConfig
  state : ThrottleState

/-- WebhookService.send applied to an already resolved configuration list:
filter to the enabled webhooks, return false immediately when none,
otherwise fan out and return whether some result is true. -/
def send (outcome : WebhookConfig → HttpOutcome) (now : Nat) (eventType : EventType)
    (entityId : String) (configs : List WebhookConfig) (s : ThrottleState) : SendResult :=
  let enabledWebhooks := getEnabledWebhooksForEvent configs eventType
  if enabledWebhooks.isEmpty then
    { delivered := false, attempted := [], httpCalls := [], state := s }
  else
    let r := sendLoop outcome now eventType entityId enabledWebhooks s
    { delivered := r.1.any (· == true),
      attempted := enabledWebhooks,
      httpCalls := r.2.1,
      state := r.2.2 }

/-- Outcome of one Firestore read; error models a rejected promise,
which the try block of fetchConfigs catches. -/
inductive ReadResult (α : Type)
  | ok (value : α)
  | error
deriving DecidableEq

/-- The document data of one entry of the webhooks collection (everything
of a WebhookConfig except the id, which comes from doc.id). -/
structure WebhookDocData where
  name : String
  url : String
  enabled : Bool
  secret : String
  events : EventsConfig
  throttle : ThrottleConfig
deriving DecidableEq

/-- The legacy settings/webhook document: Omit WebhookConfig id name. -/
structure LegacyWebhookConfig where
  url : String
  enabled : Bool
  secret : String
  events : EventsConfig
  throttle : ThrottleConfig
deriving DecidableEq

/-- The observable content of the Firestore store as fetchConfigs reads it:
the webhooks collection (doc id paired with doc data) and the legacy
settings/webhook document (none when it does not exist). -/
structure WebhookStore where
  webhooksCollection : ReadResult (List (String × WebhookDocData))
  legacyDoc : ReadResult (Option LegacyWebhookConfig)

/-- WebhookService.fetchConfigs: read the webhooks collection; when empty,
fall back to the legacy document upgraded with a synthetic id and name;
any error inside the try block yields the empty list. -/
def fetchConfigs (store : WebhookStore) : List WebhookConfig :=
  match store.webhooksCollection with
  | .error => []
  | .ok docs =>
    if docs.isEmpty then
      match store.legacyDoc with
      | .error => []
      | .ok (some oldConfig) =>
        [{ id := "default", name := "Webhook Padrão",
           url := oldConfig.url, enabled := oldConfig.enabled,
           secret := oldConfig.secret, events := oldConfig.events,
           throttle := oldConfig.throttle }]
      | .ok none => []
    else
      docs.map (fun d =>
        { id := d.1, name := d.2.name, url := d.2.url, enabled := d.2.enabled,
          secret := d.2.secret, events := d.2.events, throttle := d.2.throttle })

/-- The cache fields of the WebhookService instance: this.configs,
this.lastFetch, and whether this.fetchPromise is non-null. -/
structure CacheState where
  configs : List WebhookConfig
  lastFetch : Nat
  fetchInFlight : Bool
deriving DecidableEq

/-- What one call to getConfigs does before any await: return the cached
list, await the fetch already in flight, or start a new fetch. -/
inductive FetchDecision
  | useCache
  | awaitInFlight
  | startFetch
deriving DecidableEq

/-- The branch structure of WebhookService.getConfigs: the cache is used
when this.configs.length greater than zero and now minus this.lastFetch is
below five minutes; otherwise a pending fetch is awaited when one exists;
otherwise a new fetch starts. -/
def getConfigsStep (s : CacheState) (now : Nat) : FetchDecision :=
  if 0 < s.configs.length ∧ (now : Int) - (s.lastFetch : Int) < 5 * 60 * 1000 then
    .useCache
  else if s.fetchInFlight then
    .awaitInFlight
  else
    .startFetch

/-- A sequential run of getConfigs calls: each call carries its time and
the destination list the store would return were a fetch performed. A
started fetch completes before the next call (calls do not overlap), so
on startFetch the cache fields are set to the fetch result and its time,
and fetchPromise is null again afterwards. Returns the decision trace and
the final cache state. -/
def runGetConfigs : List (Nat × List WebhookConfig) → CacheState →
    List (Nat × FetchDecision) × CacheState
  | [], s => ([], s)
  | (t, result) :: rest, s =>
    match getConfigsStep s t with
    | .useCache =>
      let tail := runGetConfigs rest s
      ((t, .useCache) :: tail.1, tail.2)
    | .awaitInFlight =>
      let tail := runGetConfigs rest s
      ((t, .awaitInFlight) :: tail.1, tail.2)
    | .startFetch =>
      let tail := runGetConfigs rest
        { configs := result, lastFetch := t, fetchInFlight := false }
      ((t, .startFetch) :: tail.1, tail.2)

/-- The times of the trace entries at which a new store fetch started. -/
def fetchTimes (trace : List (Nat × FetchDecision)) : List Nat :=
  trace.filterMap (fun p => if p.2 = FetchDecision.startFetch then some p.1 else none)

/-- A sequence of sendToWebhook calls to one destination for one event kind
and entity id, at the given times, threading the throttle map. Each trace
entry pairs the call time with whether an HTTP call was made. -/
def runSends (outcome : WebhookConfig → HttpOutcome) (config : WebhookConfig)
    (eventType : EventType) (entityId : String) :
    List Nat → ThrottleState → List (Nat × Bool) × ThrottleState
  | [], s => ([], s)
  | t :: ts, s =>
    let step := sendToWebhook outcome t config eventType entityId s
    let tail := runSends outcome config eventType entityId ts step.2.2
    ((t, step.2.1) :: tail.1, tail.2)

/-- The times of the trace entries at which an HTTP attempt was made. -/
def attemptTimes (trace : List (Nat × Bool)) : List Nat :=
  trace.filterMap (fun p => if p.2 then some p.1 else none)

/-- One embedded document record of a client (type, number). -/
structure DocumentRecord where
  dtype : String
  number : String
deriving DecidableEq

/-- The fields of a client record that the Change Monitor reads: id,
status, and the embedded documents that get redacted. All other fields
ride along unchanged and are not modelled. -/
structure ClientData where
  id : String
  status : Option String
  documents : List DocumentRecord
deriving DecidableEq

/-- The fields of a proposal record that the Change Monitor reads or
writes; the remaining fields ride along unchanged. -/
structure ProposalData where
  id : String
  number : Option String
  clientId : Option String
  clientName : Option String
  bankId : Option String
  bankName : Option String
  bankTradingName : Option String
  status : Option String
  pipelineStatus : Option String
deriving DecidableEq

/-- A bank document as read during enrichment. -/
structure BankData where
  name : String
  tradingName : Option String
deriving DecidableEq

/-- The type field of a Firestore document change. -/
inductive ChangeType
  | added
  | modified
  | removed
deriving DecidableEq

/-- One Dispatcher invocation issued by the Change Monitor, in the shape
of the webhookService method called and the data it was given. -/
inductive MonitorEvent
  | clientCreated (d : ClientData)
  | clientStatusChanged (d : ClientData) (previousStatus : String)
  | clientUpdated (d : ClientData)
  | proposalCreated (d : ProposalData)
  | proposalStatusChanged (d : ProposalData) (previousStatus : String)
  | pipelineStatusChanged (proposalId : String)
      (previousStatus newStatus : Option String)
  | proposalUpdated (d : ProposalData)
deriving DecidableEq

/-- Digit masking of one document number: doc.number ? replace digits by
stars : three stars (the empty string is falsy). -/
def maskNumber (n : String) : String :=
  if n == "" then "***"
  else String.mk (n.data.map (fun c => if c.isDigit then '*' else c))

/-- The sensitive-data redaction the clients handler performs before any
dispatch: every embedded document number has its digits masked. -/
def redactClient (d : ClientData) : ClientData :=
  { d with documents := d.documents.map (fun r => { r with number := maskNumber r.number }) }

/-- JavaScript truthiness of an optional string field: present and
non-empty. -/
def isTruthyOpt : Option String → Bool
  | some s => !(s == "")
  | none => false

/-- The enrichment the proposals handler performs before dispatching:
resolve clientName via the clients collection when a clientId is present,
and bankName and bankTradingName via the banks collection when a bankId is
present. A lookup returning none models a missing document or a failed
read, both of which leave the fields untouched. -/
def enrichWithClientName (lookupClientName : String → Option String)
    (p : ProposalData) : ProposalData :=
  if isTruthyOpt p.clientId then
    match lookupClientName (p.clientId.getD "") with
    | some n => { p with clientName := some n }
    | none => p
  else p

/-- The bank stage of the enrichment: bankName is the name of the bank
document and bankTradingName its tradingName or the empty string. -/
def enrichWithBank (lookupBank : String → Option BankData) (p : ProposalData) :
    ProposalData :=
  if isTruthyOpt p.bankId then
    match lookupBank (p.bankId.getD "") with
    | some b => { p with bankName := some b.name,
                         bankTradingName := some (b.tradingName.getD "") }
    | none => p
  else p

def enrichProposal (lookupClientName : String → Option String)
    (lookupBank : String → Option BankData) (p : ProposalData) : ProposalData :=
  enrichWithBank lookupBank (enrichWithClientName lookupClientName p)

/-- The clients onSnapshot handler of useWebhookTrigger for one document
change: redact, then on added dispatch clientCreated and store the
snapshot; on modified dispatch clientStatusChanged when a previous
snapshot exists and its status differs, then always clientUpdated, then
store the snapshot. Returns the dispatches in order and the new
previousClientStates map. -/
def processClientChange (changeType : ChangeType) (d0 : ClientData)
    (prevStates : String → Option ClientData) :
    List MonitorEvent × (String → Option ClientData) :=
  let d := redactClient d0
  match changeType with
  | .added => ([.clientCreated d], mapSet prevStates d.id d)
  | .modified =>
    let statusEvents :=
      match prevStates d.id with
      | some p =>
        if p.status ≠ d.status then [.clientStatusChanged d (p.status.getD "")] else []
      | none => []
    (statusEvents ++ [.clientUpdated d], mapSet prevStates d.id d)
  | .removed => ([], prevStates)

/-- The proposals onSnapshot handler of useWebhookTrigger for one document
change: enrich, then on added dispatch proposalCreated and store the
snapshot; on modified, when a previous snapshot exists, dispatch
proposalStatusChanged when status differs and pipelineStatusChanged when
pipelineStatus differs, then always proposalUpdated, then store the
snapshot. -/
def processProposalChange (lookupClientName : String → Option String)
    (lookupBank : String → Option BankData) (changeType : ChangeType)
    (d0 : ProposalData) (prevStates : String → Option ProposalData) :
    List MonitorEvent × (String → Option ProposalData) :=
  let d := enrichProposal lookupClientName lookupBank d0
  match changeType with
  | .added => ([.proposalCreated d], mapSet prevStates d.id d)
  | .modified =>
    let statusEvents :=
      match prevStates d.id with
      | some p =>
        (if p.status ≠ d.status then [.proposalStatusChanged d (p.status.getD "")] else [])
        ++ (if p.pipelineStatus ≠ d.pipelineStatus then
              [.pipelineStatusChanged d.id p.pipelineStatus d.pipelineStatus] else [])
      | none => []
    (statusEvents ++ [.proposalUpdated d], mapSet prevStates d.id d)
  | .removed => ([], prevStates)

/-! Theorems. -/

/-- The nested per-entity per-event flag of a destination for an event
kind, as the data model of the spec names it. -/
def nestedEventFlag (config : WebhookConfig) : EventType → Bool
  | .client_created => config.events.clients.created
  | .client_updated => config.events.clients.updated
  | .client_status_changed => config.events.clients.statusChanged
  | .proposal_created => config.events.proposals.created
  | .proposal_updated => config.events.proposals.updated
  | .proposal_status_changed => config.events.proposals.statusChanged
  | .pipeline_status_changed => config.events.pipeline.statusChanged

theorem webhookEligible_iff (config : WebhookConfig) (eventType : EventType) :
    webhookEligible config eventType = true ↔
      config.enabled = true ∧ config.url ≠ "" ∧ nestedEventFlag config eventType = true := by
  unfold webhookEligible
  by_cases he : config.enabled = true
  · by_cases hu : config.url = ""
    · simp [he, hu]
    · cases eventType <;> simp [he, hu, nestedEventFlag]
  · simp [Bool.not_eq_true] at he
    simp [he]

theorem send_attempted_eq (outcome : WebhookConfig → HttpOutcome) (now : Nat)
    (eventType : EventType) (entityId : String) (configs : List WebhookConfig)
    (s : ThrottleState) :
    (send outcome now eventType entityId configs s).attempted =
      getEnabledWebhooksForEvent configs eventType := by
  unfold send
  by_cases h : (getEnabledWebhooksForEvent configs eventType).isEmpty
  · simp [h, List.isEmpty_iff.mp h]
  · simp [h]

theorem sendLoop_calls_subset (outcome : WebhookConfig → HttpOutcome) (now : Nat)
    (eventType : EventType) (entityId : String) :
    ∀ (cs : List WebhookConfig) (s : ThrottleState) (c : WebhookConfig),
      c ∈ (sendLoop outcome now eventType entityId cs s).2.1 → c ∈ cs
  | [], _, _ => by simp [sendLoop]
  | c0 :: cs, s, c => by
    intro hmem
    simp only [sendLoop] at hmem
    by_cases hmade : (sendToWebhook outcome now c0 eventType entityId s).2.1
    · simp only [hmade, if_true, List.mem_cons] at hmem
      rcases hmem with h | h
      · exact h ▸ List.mem_cons_self c0 cs
      · exact List.mem_cons_of_mem _ (sendLoop_calls_subset outcome now eventType entityId cs _ c h)
    · simp only [hmade, if_false, Bool.false_eq_true] at hmem
      exact List.mem_cons_of_mem _ (sendLoop_calls_subset outcome now eventType entityId cs _ c hmem)

/-- C1. For every configured destination and every one of the seven event
kinds, send attempts delivery (invokes sendToWebhook) for a destination
exactly when the destination is enabled, has a non-empty url, and has the
nested flag for the event kind set; every destination failing one of the
conditions receives no HTTP call from that invocation. -/
theorem webhook_send_attempts_iff_eligible (outcome : WebhookConfig → HttpOutcome)
    (now : Nat) (eventType : EventType) (entityId : String)
    (configs : List WebhookConfig) (s : ThrottleState) (c : WebhookConfig) :
    (c ∈ (send outcome now eventType entityId configs s).attempted ↔
      c ∈ configs ∧ c.enabled = true ∧ c.url ≠ "" ∧ nestedEventFlag c eventType = true)
    ∧ (∀ c2 : WebhookConfig, c2 ∈ (send outcome now eventType entityId configs s).httpCalls →
        c2 ∈ (send outcome now eventType entityId configs s).attempted) := by
  constructor
  · rw [send_attempted_eq]
    unfold getEnabledWebhooksForEvent
    rw [List.mem_filter, webhookEligible_iff]
  · intro c2 h2
    rw [send_attempted_eq]
    unfold send at h2
    by_cases h : (getEnabledWebhooksForEvent configs eventType).isEmpty
    · simp [h] at h2
    · simp only [h, Bool.false_eq_true, if_false] at h2
      exact sendLoop_calls_subset outcome now eventType entityId _ s c2 h2

theorem sendToWebhook_result_iff (outcome : WebhookConfig → HttpOutcome) (now : Nat)
    (config : WebhookConfig) (eventType : EventType) (entityId : String)
    (s : ThrottleState) :
    (sendToWebhook outcome now config eventType entityId s).1 = true ↔
      (sendToWebhook outcome now config eventType entityId s).2.1 = true
      ∧ outcome config = .ok2xx := by
  unfold sendToWebhook
  by_cases hth : (shouldThrottle now config eventType entityId s).1 <;>
    cases ho : outcome config <;> simp [hth, ho]

theorem sendLoop_any_iff (outcome : WebhookConfig → HttpOutcome) (now : Nat)
    (eventType : EventType) (entityId : String) :
    ∀ (cs : List WebhookConfig) (s : ThrottleState),
      ((sendLoop outcome now eventType entityId cs s).1.any (· == true) = true ↔
        ∃ c, c ∈ (sendLoop outcome now eventType entityId cs s).2.1 ∧ outcome c = .ok2xx)
  | [], s => by simp [sendLoop]
  | c0 :: cs, s => by
    have ih := sendLoop_any_iff outcome now eventType entityId cs
      (sendToWebhook outcome now c0 eventType entityId s).2.2
    have hres := sendToWebhook_result_iff outcome now c0 eventType entityId s
    by_cases hmade : (sendToWebhook outcome now c0 eventType entityId s).2.1
    · simp only [sendLoop, hmade, if_true, List.any_cons, List.mem_cons,
        Bool.or_eq_true, beq_iff_eq]
      constructor
      · intro h
        rcases h with h | h
        · exact ⟨c0, Or.inl rfl, (hres.mp h).2⟩
        · rcases ih.mp h with ⟨c, hc, hok⟩
          exact ⟨c, Or.inr hc, hok⟩
      · intro h
        rcases h with ⟨c, hc | hc, hok⟩
        · exact Or.inl (hres.mpr ⟨hmade, hc ▸ hok⟩)
        · exact Or.inr (ih.mpr ⟨c, hc, hok⟩)
    · have hresf : (sendToWebhook outcome now c0 eventType entityId s).1 = false := by
        rcases Bool.eq_false_or_eq_true (sendToWebhook outcome now c0 eventType entityId s).1
          with h | h
        · exact absurd (hres.mp h).1 hmade
        · exact h
      simp only [sendLoop, hmade, Bool.false_eq_true, if_false, List.any_cons, hresf,
        Bool.or_eq_true, beq_iff_eq, Bool.false_eq_true, false_or]
      exact ih

/-- C2. The boolean send returns is true exactly when some destination
that received an HTTP POST got a 2xx response; when zero destinations are
eligible, send returns false having performed no delivery and left the
throttle state untouched. -/
theorem webhook_send_delivered_iff (outcome : WebhookConfig → HttpOutcome)
    (now : Nat) (eventType : EventType) (entityId : String)
    (configs : List WebhookConfig) (s : ThrottleState) :
    ((send outcome now eventType entityId configs s).delivered = true ↔
      ∃ c, c ∈ (send outcome now eventType entityId configs s).httpCalls
        ∧ outcome c = .ok2xx)
    ∧ (getEnabledWebhooksForEvent configs eventType = [] →
        send outcome now eventType entityId configs s =
          { delivered := false, attempted := [], httpCalls := [], state := s }) := by
  constructor
  · unfold send
    by_cases h : (getEnabledWebhooksForEvent configs eventType).isEmpty
    · simp [h]
    · simp only [h, Bool.false_eq_true, if_false]
      exact sendLoop_any_iff outcome now eventType entityId _ s
  · intro h
    unfold send
    simp [h]

theorem shouldThrottle_disabled (now : Nat) (config : WebhookConfig)
    (eventType : EventType) (entityId : String) (s : ThrottleState)
    (h : config.throttle.enabled = false) :
    shouldThrottle now config eventType entityId s = (false, s) := by
  unfold shouldThrottle
  simp [h]

theorem shouldThrottle_enabled (now : Nat) (config : WebhookConfig)
    (eventType : EventType) (entityId : String) (s : ThrottleState)
    (h : config.throttle.enabled = true) :
    shouldThrottle now config eventType entityId s =
      if (now : Int) - (((s (eventKey config eventType entityId)).getD 0 : Nat) : Int) <
          (config.throttle.interval : Int) * 1000 then
        (true, s)
      else
        (false, mapSet s (eventKey config eventType entityId) now) := by
  unfold shouldThrottle
  simp [h]

theorem sendToWebhook_of_throttled (outcome : WebhookConfig → HttpOutcome) (now : Nat)
    (config : WebhookConfig) (eventType : EventType) (entityId : String)
    (s s2 : ThrottleState)
    (h : shouldThrottle now config eventType entityId s = (true, s2)) :
    sendToWebhook outcome now config eventType entityId s = (false, false, s2) := by
  unfold sendToWebhook
  rw [h]
  simp

theorem sendToWebhook_of_pass (outcome : WebhookConfig → HttpOutcome) (now : Nat)
    (config : WebhookConfig) (eventType : EventType) (entityId : String)
    (s s2 : ThrottleState)
    (h : shouldThrottle now config eventType entityId s = (false, s2)) :
    sendToWebhook outcome now config eventType entityId s =
      ((outcome config == .ok2xx), true, s2) := by
  unfold sendToWebhook
  rw [h]
  cases ho : outcome config <;> simp [ho]

/-- Spacing invariant of a run of sendToWebhook calls on one composite
key: the times at which HTTP attempts happen are at least one throttle
interval apart, and each of them is at least one interval past the
timestamp recorded in the initial state. -/
theorem runSends_attempt_spacing (outcome : WebhookConfig → HttpOutcome)
    (config : WebhookConfig) (eventType : EventType) (entityId : String)
    (h : config.throttle.enabled = true) :
    ∀ (ts : List Nat) (s : ThrottleState),
      List.Chain'
        (fun a b : Nat => (a : Int) + (config.throttle.interval : Int) * 1000 ≤ (b : Int))
        (attemptTimes (runSends outcome config eventType entityId ts s).1)
      ∧ ∀ x ∈ attemptTimes (runSends outcome config eventType entityId ts s).1,
          (((s (eventKey config eventType entityId)).getD 0 : Nat) : Int) +
            (config.throttle.interval : Int) * 1000 ≤ (x : Int)
  | [], s => by simp [runSends, attemptTimes]
  | t :: ts, s => by
    have hgap : (0 : Int) ≤ (config.throttle.interval : Int) * 1000 := by positivity
    by_cases hlt : (t : Int) - (((s (eventKey config eventType entityId)).getD 0 : Nat) : Int) <
        (config.throttle.interval : Int) * 1000
    · -- throttled call: no attempt, state unchanged
      have hstep := sendToWebhook_of_throttled outcome t config eventType entityId s s
        (by rw [shouldThrottle_enabled t config eventType entityId s h, if_pos hlt])
      have ih := runSends_attempt_spacing outcome config eventType entityId h ts s
      simpa [runSends, hstep, attemptTimes] using ih
    · -- attempt: timestamp recorded, tail starts from the updated map
      have hstep := sendToWebhook_of_pass outcome t config eventType entityId s
        (mapSet s (eventKey config eventType entityId) t)
        (by rw [shouldThrottle_enabled t config eventType entityId s h, if_neg hlt])
      have ih := runSends_attempt_spacing outcome config eventType entityId h ts
        (mapSet s (eventKey config eventType entityId) t)
      have hkey : (mapSet s (eventKey config eventType entityId) t)
          (eventKey config eventType entityId) = some t := by
        unfold mapSet
        simp
      rw [hkey] at ih
      have hvt : (((s (eventKey config eventType entityId)).getD 0 : Nat) : Int) +
          (config.throttle.interval : Int) * 1000 ≤ (t : Int) := by omega
      have htail : ∀ x ∈ attemptTimes (runSends outcome config eventType entityId ts
          (mapSet s (eventKey config eventType entityId) t)).1,
          (t : Int) + (config.throttle.interval : Int) * 1000 ≤ (x : Int) := by
        simpa using ih.2
      constructor
      · simp only [runSends, hstep, attemptTimes, List.filterMap_cons, if_pos]
        rw [List.chain'_cons']
        refine ⟨?_, by simpa [attemptTimes] using ih.1⟩
        intro y hy
        exact htail y (List.mem_of_mem_head? hy)
      · simp only [runSends, hstep, attemptTimes, List.filterMap_cons, if_pos]
        intro x hx
        rcases List.mem_cons.mp hx with hx | hx
        · exact hx ▸ hvt
        · have := htail x hx
          omega

/-- C3. For a destination with throttling enabled: a call arriving sooner
than the throttle interval after the timestamp recorded for its composite
key is suppressed — sendToWebhook makes no HTTP attempt, returns false,
and leaves the throttle map unchanged — and over any sequence of calls for
one composite key, successive HTTP attempts are at least one interval
apart, so at most one HTTP attempt occurs per interval window. -/
theorem webhook_throttle_suppression (outcome : WebhookConfig → HttpOutcome)
    (now : Nat) (config : WebhookConfig) (eventType : EventType) (entityId : String)
    (s : ThrottleState) (h : config.throttle.enabled = true) :
    ((now : Int) - (((s (eventKey config eventType entityId)).getD 0 : Nat) : Int) <
        (config.throttle.interval : Int) * 1000 →
      sendToWebhook outcome now config eventType entityId s = (false, false, s))
    ∧ ∀ (ts : List Nat) (s0 : ThrottleState),
        List.Chain'
          (fun a b : Nat => (a : Int) + (config.throttle.interval : Int) * 1000 ≤ (b : Int))
          (attemptTimes (runSends outcome config eventType entityId ts s0).1) := by
  constructor
  · intro hlt
    exact sendToWebhook_of_throttled outcome now config eventType entityId s s
      (by rw [shouldThrottle_enabled now config eventType entityId s h, if_pos hlt])
  · intro ts s0
    exact (runSends_attempt_spacing outcome config eventType entityId h ts s0).1

/-- Fixture with every nested event flag on. -/
def eventsAllOn : EventsConfig := ⟨⟨true, true, true⟩, ⟨true, true, true⟩, ⟨true⟩⟩

/-- Fixture destination whose throttle is disabled. -/
def cfgNoThrottle : WebhookConfig :=
  ⟨"B", "Webhook B", "https://example.org/hook", true, "sec", eventsAllOn, ⟨false, 60⟩⟩

/-- Fixture throttle map with no entries. -/
def emptyTimes : ThrottleState := fun _ => none

/-- C4 counterexample. A destination whose throttle is disabled: the
delivery attempt at time 5 is non-throttled and the HTTP call is made,
yet no timestamp is stored for the composite key afterwards, so the
claim that every non-throttled attempt updates the stored timestamp to
the current time fails on this input. -/
theorem webhook_stamp_counterexample :
    (sendToWebhook (fun _ => .ok2xx) 5 cfgNoThrottle .client_created "c1" emptyTimes).2.1
      = true
    ∧ (sendToWebhook (fun _ => .ok2xx) 5 cfgNoThrottle .client_created "c1" emptyTimes).2.2
        (eventKey cfgNoThrottle .client_created "c1") = none := by
  constructor <;> rfl

/-- C4 amended. For a destination with throttling enabled, every
non-throttled delivery attempt updates the stored timestamp of its
composite key to the current time, whatever the HTTP outcome is — the
throttle is attempt-based, not success-based. When throttling is
disabled no timestamp is recorded (see the counterexample). -/
theorem webhook_stamp_attempt_based (outcome : WebhookConfig → HttpOutcome)
    (now : Nat) (config : WebhookConfig) (eventType : EventType) (entityId : String)
    (s : ThrottleState) (h : config.throttle.enabled = true)
    (hpass : ¬ ((now : Int) - (((s (eventKey config eventType entityId)).getD 0 : Nat) : Int) <
        (config.throttle.interval : Int) * 1000)) :
    (sendToWebhook outcome now config eventType entityId s).2.1 = true
    ∧ (sendToWebhook outcome now config eventType entityId s).2.2
        (eventKey config eventType entityId) = some now := by
  have hstep := sendToWebhook_of_pass outcome now config eventType entityId s
    (mapSet s (eventKey config eventType entityId) now)
    (by rw [shouldThrottle_enabled now config eventType entityId s h, if_neg hpass])
  rw [hstep]
  refine ⟨rfl, ?_⟩
  unfold mapSet
  simp

/-- C10. Frame effects of throttling: a suppressed call leaves the
throttle map unchanged, so the suppression window is measured from the
last non-throttled attempt; once the interval has elapsed since the
recorded timestamp an HTTP attempt is made again, so a continuous stream
of calls is not suppressed indefinitely; and a destination whose throttle
is disabled never has a timestamp entry created. -/
theorem webhook_throttle_frame (outcome : WebhookConfig → HttpOutcome)
    (now : Nat) (config : WebhookConfig) (eventType : EventType) (entityId : String)
    (s : ThrottleState) :
    (config.throttle.enabled = true →
      (now : Int) - (((s (eventKey config eventType entityId)).getD 0 : Nat) : Int) <
          (config.throttle.interval : Int) * 1000 →
      (sendToWebhook outcome now config eventType entityId s).2.2 = s)
    ∧ (config.throttle.enabled = true →
        (((s (eventKey config eventType entityId)).getD 0 : Nat) : Int) +
            (config.throttle.interval : Int) * 1000 ≤ (now : Int) →
        (sendToWebhook outcome now config eventType entityId s).2.1 = true)
    ∧ (config.throttle.enabled = false →
        (sendToWebhook outcome now config eventType entityId s).2.2 = s) := by
  refine ⟨?_, ?_, ?_⟩
  · intro h hlt
    rw [sendToWebhook_of_throttled outcome now config eventType entityId s s
      (by rw [shouldThrottle_enabled now config eventType entityId s h, if_pos hlt])]
  · intro h hge
    have hpass : ¬ ((now : Int) -
        (((s (eventKey config eventType entityId)).getD 0 : Nat) : Int) <
        (config.throttle.interval : Int) * 1000) := by omega
    rw [sendToWebhook_of_pass outcome now config eventType entityId s
      (mapSet s (eventKey config eventType entityId) now)
      (by rw [shouldThrottle_enabled now config eventType entityId s h, if_neg hpass])]
  · intro h
    rw [sendToWebhook_of_pass outcome now config eventType entityId s s
      (shouldThrottle_disabled now config eventType entityId s h)]

theorem getConfigsStep_startFetch_inv (s : CacheState) (now : Nat)
    (h : getConfigsStep s now = .startFetch) :
    ¬(0 < s.configs.length ∧ (now : Int) - (s.lastFetch : Int) < 5 * 60 * 1000)
    ∧ s.fetchInFlight = false := by
  unfold getConfigsStep at h
  by_cases h1 : 0 < s.configs.length ∧ (now : Int) - (s.lastFetch : Int) < 5 * 60 * 1000
  · rw [if_pos h1] at h
    exact absurd h (by simp)
  · rw [if_neg h1] at h
    by_cases h2 : s.fetchInFlight = true
    · rw [if_pos h2] at h
      exact absurd h (by simp)
    · exact ⟨h1, by simpa using h2⟩

/-- Spacing invariant of a sequential run of getConfigs calls: when every
fetch returns a non-empty list, the times at which store fetches start
are at least five minutes apart, and when the initial cache is non-empty
each of them is at least five minutes past the initial lastFetch. -/
theorem runGetConfigs_fetch_spacing :
    ∀ (calls : List (Nat × List WebhookConfig)) (s : CacheState),
      (∀ p ∈ calls, p.2 ≠ []) →
      List.Chain' (fun a b : Nat => (a : Int) + 5 * 60 * 1000 ≤ (b : Int))
        (fetchTimes (runGetConfigs calls s).1)
      ∧ (s.configs ≠ [] → ∀ x ∈ fetchTimes (runGetConfigs calls s).1,
          (s.lastFetch : Int) + 5 * 60 * 1000 ≤ (x : Int))
  | [], s, _ => by simp [runGetConfigs, fetchTimes]
  | (t, result) :: rest, s, hne => by
    have hrest : ∀ p ∈ rest, p.2 ≠ [] := fun p hp => hne p (List.mem_cons_of_mem _ hp)
    cases hstep : getConfigsStep s t with
    | useCache =>
      have ih := runGetConfigs_fetch_spacing rest s hrest
      simpa [runGetConfigs, hstep, fetchTimes] using ih
    | awaitInFlight =>
      have ih := runGetConfigs_fetch_spacing rest s hrest
      simpa [runGetConfigs, hstep, fetchTimes] using ih
    | startFetch =>
      have hinv := getConfigsStep_startFetch_inv s t hstep
      have hresult : result ≠ [] := hne (t, result) (List.mem_cons_self _ _)
      have ih := runGetConfigs_fetch_spacing rest ⟨result, t, false⟩ hrest
      have htail : ∀ x ∈ fetchTimes (runGetConfigs rest ⟨result, t, false⟩).1,
          (t : Int) + 5 * 60 * 1000 ≤ (x : Int) := by
        simpa using ih.2 hresult
      constructor
      · simp only [runGetConfigs, hstep, fetchTimes, List.filterMap_cons, reduceCtorEq,
          if_pos, reduceIte]
        rw [List.chain'_cons']
        refine ⟨?_, by simpa [fetchTimes] using ih.1⟩
        intro y hy
        exact htail y (List.mem_of_mem_head? hy)
      · intro hcfg x hx
        have hlen : 0 < s.configs.length := List.length_pos.mpr hcfg
        have hlate : (s.lastFetch : Int) + 5 * 60 * 1000 ≤ (t : Int) := by
          by_contra hc
          exact hinv.1 ⟨hlen, by omega⟩
        simp only [runGetConfigs, hstep, fetchTimes, List.filterMap_cons, reduceCtorEq,
          if_pos, reduceIte] at hx
        rcases List.mem_cons.mp hx with hx | hx
        · rw [hx]
          exact hlate
        · have := htail x (by simpa [fetchTimes] using hx)
          omega

/-- C5 counterexample. With an empty store, two send operations 1 ms
apart (no fetch in flight, no cache-invalidation operation invoked: none
exists in the source) each start their own store fetch, so configuration
is read twice within one 5-minute window. -/
def emptyCache : CacheState := ⟨[], 0, false⟩

theorem webhook_cache_counterexample :
    (runGetConfigs [(0, []), (1, [])] emptyCache).1 =
      [(0, .startFetch), (1, .startFetch)] := by
  decide

/-- C5 amended. While a fetch is in flight no caller starts a duplicate
store read: a caller whose cache test fails awaits the in-flight fetch
(single-flight). Provided every fetch returns a non-empty destination
list, the configuration is fetched at most once per 5-minute window:
successive fetch start times are at least five minutes apart. When a
fetch returns an empty list the next call fetches again (see the
counterexample and the empty-cache refetch theorem). -/
theorem webhook_cache_single_flight (s : CacheState) (now : Nat)
    (h : s.fetchInFlight = true) :
    getConfigsStep s now ≠ .startFetch
    ∧ (¬(0 < s.configs.length ∧ (now : Int) - (s.lastFetch : Int) < 5 * 60 * 1000) →
        getConfigsStep s now = .awaitInFlight)
    ∧ ∀ (calls : List (Nat × List WebhookConfig)) (s0 : CacheState),
        (∀ p ∈ calls, p.2 ≠ []) →
        List.Chain' (fun a b : Nat => (a : Int) + 5 * 60 * 1000 ≤ (b : Int))
          (fetchTimes (runGetConfigs calls s0).1) := by
  refine ⟨?_, ?_, ?_⟩
  · intro hcontra
    exact absurd (getConfigsStep_startFetch_inv s now hcontra).2 (by simp [h])
  · intro hcache
    unfold getConfigsStep
    rw [if_neg hcache, if_pos h]
  · intro calls s0 hne
    exact (runGetConfigs_fetch_spacing calls s0 hne).1

/-- C9. The cache is only considered valid when the cached list is
non-empty: with an empty cached list and no fetch in flight, getConfigs
starts a new store fetch whatever the current time is, and conversely a
call that is served from the cache implies the cached list is
non-empty. -/
theorem webhook_empty_cache_refetch (s : CacheState) (now : Nat)
    (h1 : s.configs = []) (h2 : s.fetchInFlight = false) :
    getConfigsStep s now = .startFetch
    ∧ ∀ (s2 : CacheState) (now2 : Nat),
        getConfigsStep s2 now2 = .useCache → s2.configs ≠ [] := by
  constructor
  · unfold getConfigsStep
    rw [if_neg (by simp [h1]), if_neg (by simp [h2])]
  · intro s2 now2 hstep
    unfold getConfigsStep at hstep
    by_cases hc : 0 < s2.configs.length ∧ (now2 : Int) - (s2.lastFetch : Int) < 5 * 60 * 1000
    · exact List.length_pos.mp hc.1
    · rw [if_neg hc] at hstep
      by_cases hf : s2.fetchInFlight = true <;> simp [hf] at hstep

theorem sendToWebhook_rest_outcome_indep (o1 o2 : WebhookConfig → HttpOutcome)
    (now : Nat) (config : WebhookConfig) (eventType : EventType) (entityId : String)
    (s : ThrottleState) :
    (sendToWebhook o1 now config eventType entityId s).2 =
      (sendToWebhook o2 now config eventType entityId s).2 := by
  unfold sendToWebhook
  by_cases hth : (shouldThrottle now config eventType entityId s).1 <;>
    cases o1 config <;> cases o2 config <;> simp [hth]

theorem sendLoop_outcome_indep (o1 o2 : WebhookConfig → HttpOutcome) (now : Nat)
    (eventType : EventType) (entityId : String) :
    ∀ (cs : List WebhookConfig) (s : ThrottleState),
      (sendLoop o1 now eventType entityId cs s).2 =
        (sendLoop o2 now eventType entityId cs s).2
  | [], _ => rfl
  | c :: cs, s => by
    have hstep := sendToWebhook_rest_outcome_indep o1 o2 now c eventType entityId s
    have ih := sendLoop_outcome_indep o1 o2 now eventType entityId cs
      (sendToWebhook o1 now c eventType entityId s).2.2
    simp only [sendLoop, ← hstep, ih]

/-- C7. Failures are absorbed, never raised: a failed read of the
webhooks collection yields the empty configuration, as does a failed
read of the legacy document; send over zero destinations returns false
having made no HTTP call and left the throttle state untouched; and the
set of destinations attempted and the set receiving an HTTP call are
independent of the per-destination HTTP outcomes, so one destination
failing (non-2xx or network error) never prevents the delivery attempt
to another destination of the same invocation. -/
theorem webhook_error_absorption (store : WebhookStore)
    (o1 o2 : WebhookConfig → HttpOutcome) (now : Nat) (eventType : EventType)
    (entityId : String) (configs : List WebhookConfig) (s : ThrottleState) :
    (store.webhooksCollection = .error → fetchConfigs store = [])
    ∧ (store.webhooksCollection = .ok [] → store.legacyDoc = .error →
        fetchConfigs store = [])
    ∧ ((send o1 now eventType entityId [] s).delivered = false
        ∧ (send o1 now eventType entityId [] s).httpCalls = []
        ∧ (send o1 now eventType entityId [] s).state = s)
    ∧ (send o1 now eventType entityId configs s).attempted =
        (send o2 now eventType entityId configs s).attempted
    ∧ (send o1 now eventType entityId configs s).httpCalls =
        (send o2 now eventType entityId configs s).httpCalls := by
  refine ⟨?_, ?_, ?_, ?_, ?_⟩
  · intro h
    unfold fetchConfigs
    rw [h]
  · intro h hleg
    unfold fetchConfigs
    rw [h, hleg]
    simp
  · refine ⟨?_, ?_, ?_⟩ <;> simp [send, getEnabledWebhooksForEvent]
  · rw [send_attempted_eq, send_attempted_eq]
  · unfold send
    by_cases h : (getEnabledWebhooksForEvent configs eventType).isEmpty
    · simp [h]
    · simp only [h, Bool.false_eq_true, if_false]
      have := sendLoop_outcome_indep o1 o2 now eventType entityId
        (getEnabledWebhooksForEvent configs eventType) s
      rw [show (sendLoop o1 now eventType entityId
          (getEnabledWebhooksForEvent configs eventType) s).2.1 =
          (sendLoop o2 now eventType entityId
          (getEnabledWebhooksForEvent configs eventType) s).2.1 from by rw [this]]

/-- C8. When the webhooks collection is empty and the legacy document
exists, the configuration read surfaces exactly one destination carrying
the url, secret, enabled, events and throttle of the legacy document,
with the synthetic id default and name Webhook Padrão; when the
collection is empty and no legacy document exists, the read yields zero
destinations. -/
theorem webhook_legacy_fallback (store : WebhookStore)
    (oldConfig : LegacyWebhookConfig)
    (hempty : store.webhooksCollection = .ok []) :
    (store.legacyDoc = .ok (some oldConfig) →
      fetchConfigs store =
        [{ id := "default", name := "Webhook Padrão",
           url := oldConfig.url, enabled := oldConfig.enabled,
           secret := oldConfig.secret, events := oldConfig.events,
           throttle := oldConfig.throttle }])
    ∧ (store.legacyDoc = .ok none → fetchConfigs store = []) := by
  constructor
  · intro hleg
    unfold fetchConfigs
    rw [hempty, hleg]
    simp
  · intro hleg
    unfold fetchConfigs
    rw [hempty, hleg]
    simp

theorem redactClient_id (d : ClientData) : (redactClient d).id = d.id := rfl

theorem redactClient_status (d : ClientData) : (redactClient d).status = d.status := rfl

theorem enrichWithClientName_id (lc : String → Option String) (p : ProposalData) :
    (enrichWithClientName lc p).id = p.id := by
  unfold enrichWithClientName
  split
  · split <;> rfl
  · rfl

theorem enrichWithClientName_status (lc : String → Option String) (p : ProposalData) :
    (enrichWithClientName lc p).status = p.status := by
  unfold enrichWithClientName
  split
  · split <;> rfl
  · rfl

theorem enrichWithClientName_pipelineStatus (lc : String → Option String)
    (p : ProposalData) :
    (enrichWithClientName lc p).pipelineStatus = p.pipelineStatus := by
  unfold enrichWithClientName
  split
  · split <;> rfl
  · rfl

theorem enrichWithBank_id (lb : String → Option BankData) (p : ProposalData) :
    (enrichWithBank lb p).id = p.id := by
  unfold enrichWithBank
  split
  · split <;> rfl
  · rfl

theorem enrichWithBank_status (lb : String → Option BankData) (p : ProposalData) :
    (enrichWithBank lb p).status = p.status := by
  unfold enrichWithBank
  split
  · split <;> rfl
  · rfl

theorem enrichWithBank_pipelineStatus (lb : String → Option BankData) (p : ProposalData) :
    (enrichWithBank lb p).pipelineStatus = p.pipelineStatus := by
  unfold enrichWithBank
  split
  · split <;> rfl
  · rfl

theorem enrichProposal_id (lc : String → Option String) (lb : String → Option BankData)
    (p : ProposalData) : (enrichProposal lc lb p).id = p.id := by
  unfold enrichProposal
  rw [enrichWithBank_id, enrichWithClientName_id]

theorem enrichProposal_status (lc : String → Option String) (lb : String → Option BankData)
    (p : ProposalData) : (enrichProposal lc lb p).status = p.status := by
  unfold enrichProposal
  rw [enrichWithBank_status, enrichWithClientName_status]

theorem enrichProposal_pipelineStatus (lc : String → Option String)
    (lb : String → Option BankData) (p : ProposalData) :
    (enrichProposal lc lb p).pipelineStatus = p.pipelineStatus := by
  unfold enrichProposal
  rw [enrichWithBank_pipelineStatus, enrichWithClientName_pipelineStatus]

/-- C6. Classification of Monitor dispatches, for clients and proposals:
a first-time (added) record produces exactly the one created dispatch; a
modification whose status (and, for proposals, pipelineStatus) is
unchanged from the stored snapshot produces exactly the one updated
dispatch and no status-changed dispatch; a modification whose status
differs produces exactly one status-changed dispatch carrying the
previous status, followed by the updated dispatch last; a modification
with no stored snapshot skips the diff but still produces the updated
dispatch; for proposals a pipelineStatus difference additionally
produces one pipeline-status-changed dispatch before the updated
dispatch. -/
theorem monitor_dispatch_classification
    (dC pC : ClientData) (mC : String → Option ClientData)
    (lc : String → Option String) (lb : String → Option BankData)
    (q qp : ProposalData) (mq : String → Option ProposalData) :
    ((processClientChange .added dC mC).1 = [.clientCreated (redactClient dC)])
    ∧ (mC dC.id = none →
        (processClientChange .modified dC mC).1 = [.clientUpdated (redactClient dC)])
    ∧ (mC dC.id = some pC → pC.status = dC.status →
        (processClientChange .modified dC mC).1 = [.clientUpdated (redactClient dC)])
    ∧ (mC dC.id = some pC → pC.status ≠ dC.status →
        (processClientChange .modified dC mC).1 =
          [.clientStatusChanged (redactClient dC) (pC.status.getD ""),
           .clientUpdated (redactClient dC)])
    ∧ ((processProposalChange lc lb .added q mq).1 =
        [.proposalCreated (enrichProposal lc lb q)])
    ∧ (mq q.id = none →
        (processProposalChange lc lb .modified q mq).1 =
          [.proposalUpdated (enrichProposal lc lb q)])
    ∧ (mq q.id = some qp → qp.status = q.status →
        qp.pipelineStatus = q.pipelineStatus →
        (processProposalChange lc lb .modified q mq).1 =
          [.proposalUpdated (enrichProposal lc lb q)])
    ∧ (mq q.id = some qp → qp.status ≠ q.status →
        qp.pipelineStatus = q.pipelineStatus →
        (processProposalChange lc lb .modified q mq).1 =
          [.proposalStatusChanged (enrichProposal lc lb q) (qp.status.getD ""),
           .proposalUpdated (enrichProposal lc lb q)])
    ∧ (mq q.id = some qp → qp.status ≠ q.status →
        qp.pipelineStatus ≠ q.pipelineStatus →
        (processProposalChange lc lb .modified q mq).1 =
          [.proposalStatusChanged (enrichProposal lc lb q) (qp.status.getD ""),
           .pipelineStatusChanged q.id qp.pipelineStatus q.pipelineStatus,
           .proposalUpdated (enrichProposal lc lb q)])
    ∧ (mq q.id = some qp → qp.status = q.status →
        qp.pipelineStatus ≠ q.pipelineStatus →
        (processProposalChange lc lb .modified q mq).1 =
          [.pipelineStatusChanged q.id qp.pipelineStatus q.pipelineStatus,
           .proposalUpdated (enrichProposal lc lb q)]) := by
  refine ⟨?_, ?_, ?_, ?_, ?_, ?_, ?_, ?_, ?_, ?_⟩
  · simp [processClientChange]
  · intro hm
    simp [processClientChange, redactClient_id, hm]
  · intro hm hs
    simp [processClientChange, redactClient_id, redactClient_status, hm, hs]
  · intro hm hs
    simp [processClientChange, redactClient_id, redactClient_status, hm, hs]
  · simp [processProposalChange]
  · intro hm
    simp [processProposalChange, enrichProposal_id, hm]
  · intro hm hs hp
    simp [processProposalChange, enrichProposal_id, enrichProposal_status,
      enrichProposal_pipelineStatus, hm, hs, hp]
  · intro hm hs hp
    simp [processProposalChange, enrichProposal_id, enrichProposal_status,
      enrichProposal_pipelineStatus, hm, hs, hp]
  · intro hm hs hp
    simp [processProposalChange, enrichProposal_id, enrichProposal_status,
      enrichProposal_pipelineStatus, hm, hs, hp]
  · intro hm hs hp
    simp [processProposalChange, enrichProposal_id, enrichProposal_status,
      enrichProposal_pipelineStatus, hm, hs, hp]

/-! Concrete fixtures used by the witnesses. -/

def cfgMain : WebhookConfig :=
  ⟨"A", "Webhook A", "https://example.org/a", true, "sec", eventsAllOn, ⟨true, 60⟩⟩

def cfgDisabled : WebhookConfig :=
  ⟨"C", "Webhook C", "https://example.org/c", false, "sec", eventsAllOn, ⟨false, 0⟩⟩

def allOk : WebhookConfig → HttpOutcome := fun _ => .ok2xx

def inFlightCache : CacheState := ⟨[], 0, true⟩

def staleEmptyCache : CacheState := ⟨[], 999999, false⟩

def timesAfterAttempt : ThrottleState :=
  mapSet emptyTimes (eventKey cfgMain .client_updated "c1") 70000

def clientW : ClientData := ⟨"c1", some "approved", [⟨"cpf", "12345"⟩]⟩

def clientPrevW : ClientData := ⟨"c1", some "pending", []⟩

def proposalW : ProposalData :=
  ⟨"p1", some "20240001", some "c1", none, some "b1", none, none,
   some "approved", some "credit"⟩

def proposalPrevW : ProposalData :=
  ⟨"p1", some "20240001", some "c1", none, some "b1", none, none,
   some "approved", some "submitted"⟩

def lcW : String → Option String := fun _ => some "Acme"

def lbW : String → Option BankData := fun _ => some ⟨"BankOne", none⟩

def errStore : WebhookStore := ⟨.error, .ok none⟩

def errLegacyStore : WebhookStore := ⟨.ok [], .error⟩

def legacyW : LegacyWebhookConfig :=
  ⟨"https://example.org/legacy", true, "sec", eventsAllOn, ⟨true, 60⟩⟩

def legacyStore : WebhookStore := ⟨.ok [], .ok (some legacyW)⟩

def bareStore : WebhookStore := ⟨.ok [], .ok none⟩

/-- Witness for C1 at a concrete input: the enabled destination is
attempted, the disabled one is not. -/
theorem webhook_send_attempts_iff_eligible_witness :
    cfgMain ∈ (send allOk 70000 .client_created "c1" [cfgMain, cfgDisabled]
      emptyTimes).attempted
    ∧ cfgDisabled ∉ (send allOk 70000 .client_created "c1" [cfgMain, cfgDisabled]
      emptyTimes).attempted := by
  constructor
  · exact (webhook_send_attempts_iff_eligible allOk 70000 .client_created "c1"
      [cfgMain, cfgDisabled] emptyTimes cfgMain).1.mpr
      ⟨by decide, by decide, by decide, by decide⟩
  · intro hmem
    have h := (webhook_send_attempts_iff_eligible allOk 70000 .client_created "c1"
      [cfgMain, cfgDisabled] emptyTimes cfgDisabled).1.mp hmem
    exact absurd h.2.1 (by decide)

/-- Witness for C2 at a concrete input: zero eligible destinations yield
false with no I/O, and one successful destination yields true. -/
theorem webhook_send_delivered_iff_witness :
    send allOk 70000 .client_created "c1" [] emptyTimes =
      { delivered := false, attempted := [], httpCalls := [], state := emptyTimes }
    ∧ (send allOk 70000 .client_created "c1" [cfgMain] emptyTimes).delivered = true := by
  constructor
  · exact (webhook_send_delivered_iff allOk 70000 .client_created "c1" [] emptyTimes).2 rfl
  · exact (webhook_send_delivered_iff allOk 70000 .client_created "c1" [cfgMain]
      emptyTimes).1.mpr ⟨cfgMain, by decide, rfl⟩

/-- Witness for C3 at a concrete input: a call 8 seconds after the
recorded timestamp of a 60-second-interval destination is suppressed
without touching the state, and a concrete run respects the spacing. -/
theorem webhook_throttle_suppression_witness :
    sendToWebhook allOk 8000 cfgMain .client_updated "c1" emptyTimes =
      (false, false, emptyTimes)
    ∧ List.Chain'
        (fun a b : Nat => (a : Int) + (cfgMain.throttle.interval : Int) * 1000 ≤ (b : Int))
        (attemptTimes (runSends allOk cfgMain .client_updated "c1"
          [0, 8000, 70000] emptyTimes).1) := by
  have h := webhook_throttle_suppression allOk 8000 cfgMain .client_updated "c1"
    emptyTimes rfl
  exact ⟨h.1 (by decide), h.2 [0, 8000, 70000] emptyTimes⟩

/-- Witness for the amended C4 at a concrete input: a failed (non-2xx)
non-throttled attempt still records the current time. -/
theorem webhook_stamp_attempt_based_witness :
    (sendToWebhook (fun _ => .non2xx) 70000 cfgMain .client_updated "c1"
      emptyTimes).2.1 = true
    ∧ (sendToWebhook (fun _ => .non2xx) 70000 cfgMain .client_updated "c1"
        emptyTimes).2.2 (eventKey cfgMain .client_updated "c1") = some 70000 :=
  webhook_stamp_attempt_based (fun _ => .non2xx) 70000 cfgMain .client_updated "c1"
    emptyTimes rfl (by decide)

/-- Witness for the amended C5 at a concrete input: with a fetch in
flight no new fetch starts and the caller awaits it; a concrete
two-call run with a non-empty result fetches once. -/
theorem webhook_cache_single_flight_witness :
    getConfigsStep inFlightCache 1000 ≠ .startFetch
    ∧ getConfigsStep inFlightCache 1000 = .awaitInFlight
    ∧ List.Chain' (fun a b : Nat => (a : Int) + 5 * 60 * 1000 ≤ (b : Int))
        (fetchTimes (runGetConfigs [(0, [cfgMain]), (1, [cfgMain])] emptyCache).1) := by
  have h := webhook_cache_single_flight inFlightCache 1000 rfl
  exact ⟨h.1, h.2.1 (by decide),
    h.2.2 [(0, [cfgMain]), (1, [cfgMain])] emptyCache (by decide)⟩

/-- Witness for C6 at concrete inputs: creation dispatch, status-change
dispatch followed by the update dispatch, and a pipeline-only change
dispatching the pipeline event before the update event. -/
theorem monitor_dispatch_classification_witness :
    (processClientChange .added clientW (fun _ => none)).1 =
      [.clientCreated (redactClient clientW)]
    ∧ (processClientChange .modified clientW (fun _ => some clientPrevW)).1 =
        [.clientStatusChanged (redactClient clientW) "pending",
         .clientUpdated (redactClient clientW)]
    ∧ (processProposalChange lcW lbW .modified proposalW
        (fun _ => some proposalPrevW)).1 =
        [.pipelineStatusChanged "p1" (some "submitted") (some "credit"),
         .proposalUpdated (enrichProposal lcW lbW proposalW)] := by
  refine ⟨?_, ?_, ?_⟩
  · exact (monitor_dispatch_classification clientW clientPrevW (fun _ => none)
      lcW lbW proposalW proposalPrevW (fun _ => some proposalPrevW)).1
  · exact (monitor_dispatch_classification clientW clientPrevW
      (fun _ => some clientPrevW) lcW lbW proposalW proposalPrevW
      (fun _ => some proposalPrevW)).2.2.2.1 rfl (by decide)
  · exact (monitor_dispatch_classification clientW clientPrevW (fun _ => none)
      lcW lbW proposalW proposalPrevW
      (fun _ => some proposalPrevW)).2.2.2.2.2.2.2.2.2 rfl rfl (by decide)

/-- Witness for C7 at concrete inputs: both read-failure shapes yield
zero destinations; send with zero destinations performs no call and
returns false; an all-network-error oracle and an all-success oracle
produce the same HTTP call list. -/
theorem webhook_error_absorption_witness :
    fetchConfigs errStore = []
    ∧ fetchConfigs errLegacyStore = []
    ∧ (send (fun _ => .networkError) 70000 .client_created "c1" []
        emptyTimes).delivered = false
    ∧ (send (fun _ => .networkError) 70000 .client_created "c1" []
        emptyTimes).httpCalls = []
    ∧ (send (fun _ => .networkError) 70000 .client_created "c1" [cfgMain, cfgDisabled]
        emptyTimes).httpCalls =
      (send allOk 70000 .client_created "c1" [cfgMain, cfgDisabled]
        emptyTimes).httpCalls := by
  have h1 := webhook_error_absorption errStore (fun _ => .networkError) allOk 70000
    .client_created "c1" [cfgMain, cfgDisabled] emptyTimes
  have h2 := webhook_error_absorption errLegacyStore (fun _ => .networkError) allOk 70000
    .client_created "c1" [cfgMain, cfgDisabled] emptyTimes
  exact ⟨h1.1 rfl, h2.2.1 rfl rfl, h1.2.2.1.1, h1.2.2.1.2.1, h1.2.2.2.2⟩

/-- Witness for C8 at a concrete input: the legacy document surfaces as
the one default destination; with no legacy document the read is empty. -/
theorem webhook_legacy_fallback_witness :
    fetchConfigs legacyStore =
      [{ id := "default", name := "Webhook Padrão",
         url := legacyW.url, enabled := legacyW.enabled, secret := legacyW.secret,
         events := legacyW.events, throttle := legacyW.throttle }]
    ∧ fetchConfigs bareStore = [] :=
  ⟨(webhook_legacy_fallback legacyStore legacyW rfl).1 rfl,
   (webhook_legacy_fallback bareStore legacyW rfl).2 rfl⟩

/-- Witness for C9 at a concrete input: an empty cached list fetched one
millisecond ago still triggers a new fetch. -/
theorem webhook_empty_cache_refetch_witness :
    getConfigsStep staleEmptyCache 1000000 = .startFetch :=
  (webhook_empty_cache_refetch staleEmptyCache 1000000 rfl rfl).1

/-- Witness for C10 at concrete inputs: a suppressed call 5 seconds
after an attempt leaves the map untouched; a call one interval later is
attempted again; a throttle-disabled destination records nothing. -/
theorem webhook_throttle_frame_witness :
    (sendToWebhook allOk 75000 cfgMain .client_updated "c1" timesAfterAttempt).2.2 =
      timesAfterAttempt
    ∧ (sendToWebhook allOk 130000 cfgMain .client_updated "c1"
        timesAfterAttempt).2.1 = true
    ∧ (sendToWebhook allOk 75000 cfgNoThrottle .client_updated "c1"
        emptyTimes).2.2 = emptyTimes := by
  refine ⟨?_, ?_, ?_⟩
  · exact (webhook_throttle_frame allOk 75000 cfgMain .client_updated "c1"
      timesAfterAttempt).1 rfl (by decide)
  · exact (webhook_throttle_frame allOk 130000 cfgMain .client_updated "c1"
      timesAfterAttempt).2.1 rfl (by decide)
  · exact (webhook_throttle_frame allOk 75000 cfgNoThrottle .client_updated "c1"
      emptyTimes).2.2 rfl

end DolsCapital
